import Mathlib

/-!
Verification of the `time_capture` work-time tracker.

The program tracks daily work presence: it keeps a work span, subtracts the
overlap of configured breaks, and projects the wall-clock time at which a
target presence will be reached by a fixed-point iteration.

Embedding conventions, translated from `time_capture.py`:
* A `datetime.datetime` instant is an integer count of seconds since an epoch
  midnight; `date` is the calendar-day number (floor division by 86400),
  matching Python `datetime.date()`, which floors.
* A `datetime.time` (time of day) is an integer count of seconds since
  midnight.
* `datetime.timedelta` values are integers of seconds; their arithmetic is
  exact, as in Python.
* Python dicts `{start: ..., end: ...}` become two-field structures; the
  field `end` is spelled `stop` because `end` is a Lean keyword.
-/

namespace TimeCapture

/-- Calendar-day number of an instant (Python `datetime.date()`): floor
division of the second count by 86400. -/
def date (t : ℤ) : ℤ := Int.fdiv t 86400

/-- Python `datetime.datetime.combine date time`: the instant at
time-of-day `t` of day `d`. -/
def combine (d t : ℤ) : ℤ := d * 86400 + t

/-- A dictionary value that is either a `datetime.datetime` (`dt`, an
instant) or a `datetime.time` (`tod`, a time of day). -/
inductive TimeVal where
  | dt (t : ℤ)
  | tod (t : ℤ)

/-- A `{start: ..., end: ...}` dictionary whose values may be datetimes
or times of day (a break as configured, or a concrete span). -/
structure Interval where
  start : TimeVal
  stop : TimeVal

/-- A `{start: ..., end: ...}` dictionary whose values are both
datetimes (the work span, or a normalized break). -/
structure Work where
  start : ℤ
  stop : ℤ

/-- The conversion `_set_dict_to_date` applies to each dictionary value:
a `datetime.time` is combined with the given date, a `datetime.datetime`
is left unchanged. -/
def toDt (d : ℤ) : TimeVal → ℤ
  | .dt t => t
  | .tod t => combine d t

/-- Function `_set_dict_to_date`: converts time-of-day entries of the
dictionary into datetimes on day `d`, leaving datetime entries unchanged. -/
def _set_dict_to_date (d : ℤ) (iv : Interval) : Work :=
  ⟨toDt d iv.start, toDt d iv.stop⟩

/-- Function `calc_time_overlap`: the overlap duration of `first`
(datetimes) and `second` (datetimes or times of day). `second` is first
normalized with the calendar date of `first.start`; the overlap is
`overlap_end - overlap_start` when positive, else the zero duration. -/
def calc_time_overlap (first : Work) (second : Interval) : ℤ :=
  let second2 := _set_dict_to_date (date first.start) second
  let overlap_start := max first.start second2.start
  let overlap_end := min first.stop second2.stop
  if overlap_end > overlap_start then overlap_end - overlap_start else 0

/-- Function `get_breaks_duration`: sums the overlap of each break with
the work span, in list order, starting from the zero duration. -/
def get_breaks_duration (work : Work) (breaks : List Interval) : ℤ :=
  breaks.foldl (fun acc b => acc + calc_time_overlap work b) 0

/-- Function `get_presence`: elapsed work-span duration minus the summed
break overlap. -/
def get_presence (work : Work) (breaks : List Interval) : ℤ :=
  work.stop - work.start - get_breaks_duration work breaks

/-- The persisted state (`stash`): logging flag, work span, configured
breaks and target durations (minutes). -/
structure Stash where
  log : Bool
  work : Work
  breaks : List Interval
  targets : List ℤ

/-- Function `_init_stash`: the default state; work start and end are
`now`, breaks are 09:00-09:15 (32400-33300 s) and 12:30-13:00
(45000-46800 s), targets are 480 and 600 minutes. -/
def _init_stash (now : ℤ) : Stash :=
  { log := true
    work := ⟨now, now⟩
    breaks := [⟨.tod 32400, .tod 33300⟩, ⟨.tod 45000, .tod 46800⟩]
    targets := [480, 600] }

/- Helper lemmas about the overlap arithmetic, used for the termination of
the projection loop and for the claims below. -/

theorem calc_time_overlap_nonneg (w : Work) (b : Interval) :
    0 ≤ calc_time_overlap w b := by
  simp only [calc_time_overlap]
  split <;> omega

theorem calc_time_overlap_le (s e : ℤ) (b : Interval) :
    calc_time_overlap ⟨s, e⟩ b ≤
      max 0 ((_set_dict_to_date (date s) b).stop
        - (_set_dict_to_date (date s) b).start) := by
  simp only [calc_time_overlap]
  split <;> omega

theorem calc_time_overlap_mono (s e e' : ℤ) (b : Interval) (h : e ≤ e') :
    calc_time_overlap ⟨s, e⟩ b ≤ calc_time_overlap ⟨s, e'⟩ b := by
  simp only [calc_time_overlap]
  split <;> split <;> omega

theorem calc_time_overlap_of_degenerate (w : Work) (b : Interval)
    (h : w.stop ≤ w.start) : calc_time_overlap w b = 0 := by
  simp only [calc_time_overlap]
  split <;> omega

theorem get_breaks_duration_foldl (w : Work) (bs : List Interval) (c : ℤ) :
    bs.foldl (fun acc b => acc + calc_time_overlap w b) c
      = c + get_breaks_duration w bs := by
  induction bs generalizing c with
  | nil => simp [get_breaks_duration]
  | cons b bs ih =>
      simp only [get_breaks_duration, List.foldl_cons] at *
      rw [ih (c + calc_time_overlap w b), ih (0 + calc_time_overlap w b)]
      ring

theorem get_breaks_duration_cons (w : Work) (b : Interval)
    (bs : List Interval) :
    get_breaks_duration w (b :: bs)
      = calc_time_overlap w b + get_breaks_duration w bs := by
  have h := get_breaks_duration_foldl w bs (0 + calc_time_overlap w b)
  simpa [get_breaks_duration, List.foldl_cons] using h

theorem get_breaks_duration_nonneg (w : Work) (bs : List Interval) :
    0 ≤ get_breaks_duration w bs := by
  induction bs with
  | nil => simp [get_breaks_duration]
  | cons b bs ih =>
      rw [get_breaks_duration_cons]
      have := calc_time_overlap_nonneg w b
      omega

theorem get_breaks_duration_mono (s e e' : ℤ) (bs : List Interval)
    (h : e ≤ e') :
    get_breaks_duration ⟨s, e⟩ bs ≤ get_breaks_duration ⟨s, e'⟩ bs := by
  induction bs with
  | nil => simp [get_breaks_duration]
  | cons b bs ih =>
      rw [get_breaks_duration_cons, get_breaks_duration_cons]
      have := calc_time_overlap_mono s e e' b h
      omega

theorem get_breaks_duration_of_degenerate (w : Work) (bs : List Interval)
    (h : w.stop ≤ w.start) : get_breaks_duration w bs = 0 := by
  induction bs with
  | nil => simp [get_breaks_duration]
  | cons b bs ih =>
      rw [get_breaks_duration_cons, calc_time_overlap_of_degenerate w b h, ih]
      ring

/-- Total positive duration of the normalized breaks: an upper bound on
`get_breaks_duration` for any work span starting at `s`, used to prove the
projection loop terminates. -/
def break_bound (s : ℤ) (bs : List Interval) : ℤ :=
  (bs.map (fun b => max 0 ((_set_dict_to_date (date s) b).stop
    - (_set_dict_to_date (date s) b).start))).sum

theorem get_breaks_duration_le_break_bound (s e : ℤ) (bs : List Interval) :
    get_breaks_duration ⟨s, e⟩ bs ≤ break_bound s bs := by
  induction bs with
  | nil => simp [get_breaks_duration, break_bound]
  | cons b bs ih =>
      rw [get_breaks_duration_cons]
      simp only [break_bound, List.map_cons, List.sum_cons] at *
      have := calc_time_overlap_le s e b
      omega

/-- The `while True` loop of `get_target_time`, instrumented with a counter
`k` of executed presence checks: computes `missing = target - presence`;
if it is positive, advances the work end by `missing` and repeats,
otherwise exits returning the current end (and the total check count). -/
def target_loop (s : ℤ) (bs : List Interval) (target e : ℤ) (k : ℕ) :
    ℤ × ℕ :=
  if h : target - get_presence ⟨s, e⟩ bs > 0 then
    target_loop s bs target (e + (target - get_presence ⟨s, e⟩ bs)) (k + 1)
  else
    (e, k + 1)
termination_by (s + target + break_bound s bs + 1 - e).toNat
decreasing_by
  have h1 := get_breaks_duration_le_break_bound s e bs
  simp only [get_presence] at *
  omega

/-- Function `get_target_time`: starting from the naive end
`start + target`, iterates the loop until the missing time is no longer
positive. -/
def get_target_time (stash : Stash) (target : ℤ) : ℤ :=
  (target_loop stash.work.start stash.breaks target
    (stash.work.start + target) 0).1

/-- Number of presence checks `get_target_time` executes (the final,
non-advancing check included). -/
def get_target_time_count (stash : Stash) (target : ℤ) : ℕ :=
  (target_loop stash.work.start stash.breaks target
    (stash.work.start + target) 0).2

/-- Outcome of trying to read the persisted stash file: the file may be
missing or unreadable (`IOError` on `open`), present but not parseable
(`json.JSONDecodeError` from `json.load`), or parse to a stash. -/
inductive StashFile where
  | missing
  | malformed
  | present (s : Stash)

/-- Function `_get_stash`: an `IOError` is caught and answered with the
default state from `_init_stash`; a decode error is not caught and
propagates (modelled as `Except.error`). -/
def _get_stash (f : StashFile) (now : ℤ) : Except Unit Stash :=
  match f with
  | .missing => .ok (_init_stash now)
  | .malformed => .error ()
  | .present s => .ok s

/-- The in-memory state mutation of one `update` cycle (lines 40-46 of the
source): if the calendar date of `now` differs from the stored work-start
date, a log entry is emitted when the `log` flag is set and the work start
is reset to `now`; the work end is always set to `now`. Returns the stash
that is then written to disk, paired with whether a log line was
appended. -/
def update_cycle (stash : Stash) (now : ℤ) : Stash × Bool :=
  if date now ≠ date stash.work.start then
    ({ stash with work := ⟨now, now⟩ }, stash.log)
  else
    ({ stash with work := ⟨stash.work.start, now⟩ }, false)

/-- Function `update`: loads the stash (initializing it when the file is
missing) and performs the update cycle; a parse error propagates before
any state is written, so the error case carries no written stash. -/
def update (f : StashFile) (now : ℤ) : Except Unit (Stash × Bool) :=
  match _get_stash f now with
  | .error e => .error e
  | .ok s => .ok (update_cycle s now)

/-!
Serialization. String values are modelled by their classification under
the two parsers the code tries in order: `tsLike t` is a string that
`datetime.strptime` with format `%Y-%m-%dT%H:%M` parses to the instant
`t`; `todLike t` is a string rejected by `strptime` that
`datetime.time.fromisoformat` parses to the time of day `t`; `plain s` is
any other string. Both accepted formats carry minutes only, so the parsed
values are always whole minutes.
-/

/-- Classification of a Python string by the two datetime parsers, tried
in order. -/
inductive PStr where
  | tsLike (t : ℤ)
  | todLike (t : ℤ)
  | plain (s : String)

/-- A JSON value as seen by the `object_pairs_hook`: a string, an integer,
a boolean, an already-converted datetime or time of day, or a list of
values (e.g. the breaks list, whose member dicts were already hooked). -/
inductive JVal where
  | jstr (p : PStr)
  | jint (n : ℤ)
  | jbool (b : Bool)
  | jdt (t : ℤ)
  | jtod (t : ℤ)
  | jlist (l : List JVal)

/-- The per-value conversion inside `_string_to_datetime`: a string is
tried against `%Y-%m-%dT%H:%M` and then against the ISO time-of-day
format; every other value is left unchanged. -/
def convert_value : JVal → JVal
  | .jstr (.tsLike t) => .jdt t
  | .jstr (.todLike t) => .jtod t
  | v => v

/-- Function `_string_to_datetime`: applies the per-value conversion to
every entry of the key-value list, keys untouched. (The Python function
collects the result into a dict, so a repeated key would keep its last
binding; `json` objects are modelled as the ordered pair list.) -/
def _string_to_datetime (l : List (String × JVal)) : List (String × JVal) :=
  l.map (fun kv => (kv.1, convert_value kv.2))

/-- Function `_datetime_to_string`, composed with re-parsing: a datetime
serializes with `strftime` format `%Y-%m-%dT%H:%M` and a time of day with
`%H:%M`, so the emitted string parses back to the value floored to the
whole minute; any other value raises `TypeError` (`none`). -/
def _datetime_to_string : JVal → Option PStr
  | .jdt t => some (.tsLike (60 * Int.fdiv t 60))
  | .jtod t => some (.todLike (60 * Int.fdiv t 60))
  | _ => none

/-- What `json.dump` emits for one value: datetimes and times of day go
through the `default` hook `_datetime_to_string` and become strings;
JSON-native values are emitted as themselves. -/
def dump_value (v : JVal) : JVal :=
  match _datetime_to_string v with
  | some p => .jstr p
  | none => v

/-- One value serialized by `json.dump` and deserialized by `json.load`
with the `_string_to_datetime` hook. -/
def roundtrip_value (v : JVal) : JVal :=
  convert_value (dump_value v)

/- Behaviour of the projection loop. -/

theorem get_target_time_eq (stash : Stash) (target : ℤ) :
    get_target_time stash target
      = (target_loop stash.work.start stash.breaks target
          (stash.work.start + target) 0).1 := rfl

theorem get_target_time_count_eq (stash : Stash) (target : ℤ) :
    get_target_time_count stash target
      = (target_loop stash.work.start stash.breaks target
          (stash.work.start + target) 0).2 := rfl

theorem target_loop_exit (s : ℤ) (bs : List Interval) (target : ℤ)
    (e : ℤ) (k : ℕ) :
    target ≤ get_presence ⟨s, (target_loop s bs target e k).1⟩ bs := by
  induction e, k using target_loop.induct s bs target with
  | case1 e k h ih =>
      rw [target_loop, dif_pos h]
      exact ih
  | case2 e k h =>
      rw [target_loop, dif_neg h]
      dsimp only
      omega

theorem target_loop_presence (s : ℤ) (bs : List Interval) (target : ℤ)
    (e : ℤ) (k : ℕ) (hle : get_presence ⟨s, e⟩ bs ≤ target) :
    get_presence ⟨s, (target_loop s bs target e k).1⟩ bs = target := by
  induction e, k using target_loop.induct s bs target with
  | case1 e k h ih =>
      rw [target_loop, dif_pos h]
      apply ih
      have hmono := get_breaks_duration_mono s e
        (e + (target - get_presence ⟨s, e⟩ bs)) bs (by
          simp only [get_presence] at h ⊢
          omega)
      simp only [get_presence] at h hmono ⊢
      omega
  | case2 e k h =>
      rw [target_loop, dif_neg h]
      dsimp only
      omega

/-- Example state for the projection claim: work starts 07:00 (25200 s),
breaks 09:00-09:15 and 10:05-10:10 as concrete datetimes of the same day,
as in the unit test `test_target_covers_multiple_breaks`. -/
def c1_stash : Stash :=
  { log := true
    work := ⟨25200, 25200⟩
    breaks := [⟨.dt 32400, .dt 33300⟩, ⟨.dt 36300, .dt 36600⟩]
    targets := [480, 600] }

/-- Claim C1: for every start instant, break list and positive target,
`get_target_time` returns an instant at which the presence of the window
from the start equals the target; in particular for start 07:00, breaks
09:00-09:15 and 10:05-10:10 and a 180-minute target it returns 10:20
(37200 s). -/
theorem c1_projection :
    (∀ (stash : Stash) (target : ℤ), 0 < target →
        get_presence ⟨stash.work.start, get_target_time stash target⟩
          stash.breaks = target)
    ∧ get_target_time c1_stash 10800 = 37200 := by
  constructor
  · intro stash target _
    simp only [get_target_time]
    apply target_loop_presence
    have h0 := get_breaks_duration_nonneg
      ⟨stash.work.start, stash.work.start + target⟩ stash.breaks
    simp only [get_presence]
    omega
  · have h : target_loop c1_stash.work.start c1_stash.breaks 10800
        (c1_stash.work.start + 10800) 0 = (37200, 3) := by
      rw [show c1_stash.work.start = 25200 from rfl,
          show c1_stash.breaks
            = [⟨.dt 32400, .dt 33300⟩, ⟨.dt 36300, .dt 36600⟩] from rfl]
      simp [target_loop, get_presence, get_breaks_duration, calc_time_overlap,
        _set_dict_to_date, toDt, max_def, min_def]
    rw [get_target_time_eq, h]

/-- Witness for C1 at the concrete example of the unit test. -/
theorem c1_witness :
    (0 : ℤ) < 10800 ∧
      get_presence ⟨c1_stash.work.start, get_target_time c1_stash 10800⟩
        c1_stash.breaks = 10800 :=
  ⟨by decide, c1_projection.1 c1_stash 10800 (by decide)⟩

/-- Claim C2, amended: the loop always exits, and does so with the missing
time no longer positive, i.e. the presence of the returned window is at
least the target; when the target is not positive the very first check
already fails and the naive projection `start + target` is returned after
one check. (The iteration-count bound of the original claim is refuted by
`c2_counterexample`.) -/
theorem c2_termination (stash : Stash) (target : ℤ) :
    target ≤ get_presence ⟨stash.work.start, get_target_time stash target⟩
        stash.breaks
    ∧ (target ≤ 0 →
        get_target_time stash target = stash.work.start + target ∧
        get_target_time_count stash target = 1) := by
  constructor
  · simp only [get_target_time]
    exact target_loop_exit _ _ _ _ _
  · intro h
    have hD : get_breaks_duration
        ⟨stash.work.start, stash.work.start + target⟩ stash.breaks = 0 :=
      get_breaks_duration_of_degenerate _ _ (by dsimp only; omega)
    have hcond : ¬ (target - get_presence
        ⟨stash.work.start, stash.work.start + target⟩ stash.breaks > 0) := by
      simp only [get_presence, hD]
      omega
    constructor
    · simp only [get_target_time]
      rw [target_loop, dif_neg hcond]
    · simp only [get_target_time_count]
      rw [target_loop, dif_neg hcond]

/-- Witness for C2 (amended) at a negative target. -/
theorem c2_witness :
    (-60 : ℤ) ≤ 0 ∧
      (get_target_time (_init_stash 25200) (-60) = 25200 + -60 ∧
        get_target_time_count (_init_stash 25200) (-60) = 1) :=
  ⟨by decide, (c2_termination (_init_stash 25200) (-60)).2 (by decide)⟩

/-- State refuting the iteration bound of claim C2: work starts at 0 with a
single 30-minute-to-35-minute break, 300 s to 2100 s. -/
def c2_stash : Stash :=
  { log := true
    work := ⟨0, 0⟩
    breaks := [⟨.dt 300, .dt 2100⟩]
    targets := [480, 600] }

/-- Counterexample to claim C2 as stated: with one break (300 s to 2100 s)
intersecting the final window and a 600 s target, the loop runs 7 checks
(6 advancing iterations), exceeding the claimed bound of number of
intersecting breaks plus one, which is 2. -/
theorem c2_counterexample :
    get_target_time c2_stash 600 = 2400 ∧
    get_target_time_count c2_stash 600 = 7 ∧
    List.countP (fun b => decide (0 < calc_time_overlap
        ⟨c2_stash.work.start, get_target_time c2_stash 600⟩ b))
      c2_stash.breaks = 1 ∧
    1 + 1 < 7 := by
  have h : target_loop c2_stash.work.start c2_stash.breaks 600
      (c2_stash.work.start + 600) 0 = (2400, 7) := by
    rw [show c2_stash.work.start = 0 from rfl,
        show c2_stash.breaks = [⟨.dt 300, .dt 2100⟩] from rfl]
    simp [target_loop, get_presence, get_breaks_duration, calc_time_overlap,
      _set_dict_to_date, toDt, max_def, min_def]
  have h1 : get_target_time c2_stash 600 = 2400 := by
    rw [get_target_time_eq, h]
  have h2 : get_target_time_count c2_stash 600 = 7 := by
    rw [get_target_time_count_eq, h]
  refine ⟨h1, h2, ?_, by norm_num⟩
  simp only [h1]
  decide

/-- Claim C3, amended: `get_presence` is the raw difference of span
duration and summed break overlap, with no clamping; when the work end
precedes the work start every overlap is zero and the (negative) span
difference flows through unchanged. Negative presence with a well-ordered
span is nevertheless possible, see `c3_counterexample`. -/
theorem c3_presence (work : Work) (breaks : List Interval) :
    get_presence work breaks
        = (work.stop - work.start) - get_breaks_duration work breaks
    ∧ (work.stop < work.start →
        get_presence work breaks = work.stop - work.start) := by
  refine ⟨rfl, fun h => ?_⟩
  simp only [get_presence,
    get_breaks_duration_of_degenerate work breaks (by omega)]
  ring

/-- Witness for C3 (amended) at a reversed span. -/
theorem c3_witness :
    (50 : ℤ) < 100 ∧ get_presence ⟨100, 50⟩ [] = 50 - 100 :=
  ⟨by decide, (c3_presence ⟨100, 50⟩ []).2 (by decide)⟩

/-- Counterexample to claim C3 as stated: two identical breaks covering
the whole 09:00-10:00 work span double-count, so the presence is negative
although the work end is after the work start. -/
theorem c3_counterexample :
    get_presence ⟨32400, 36000⟩
        [⟨.dt 32400, .dt 36000⟩, ⟨.dt 32400, .dt 36000⟩] = -3600
    ∧ (32400 : ℤ) < 36000 := by
  constructor
  · decide
  · decide

/-- Claim C4: on two concrete time intervals the overlap equals
`max 0 (min of ends - max of starts)`, hence is never negative, zero
whenever the spans do not intersect, and zero for a reversed interval. -/
theorem c4_overlap_formula (w : Work) (a b : ℤ) :
    calc_time_overlap w ⟨.dt a, .dt b⟩
        = max 0 (min w.stop b - max w.start a)
    ∧ 0 ≤ calc_time_overlap w ⟨.dt a, .dt b⟩ := by
  constructor
  · simp only [calc_time_overlap, _set_dict_to_date, toDt]
    split <;> omega
  · exact calc_time_overlap_nonneg w _

/-- Claim C5: a time-of-day interval is normalized by combining each field
with the calendar date of the start of `first` before the overlap formula
is applied; the date of the end of `first` is never used, and on a span
crossing midnight (23:00 to 01:00, break 23:30-23:45) the two dates give
different results (900 s versus 0 s). -/
theorem c5_normalization :
    (∀ (first : Work) (second : Interval),
        calc_time_overlap first second
          = max 0
              (min first.stop (_set_dict_to_date (date first.start) second).stop
                - max first.start
                    (_set_dict_to_date (date first.start) second).start))
    ∧ (∀ (d a b : ℤ),
        _set_dict_to_date d ⟨.tod a, .tod b⟩ = ⟨combine d a, combine d b⟩)
    ∧ calc_time_overlap ⟨82800, 90000⟩ ⟨.tod 84600, .tod 85500⟩ = 900
    ∧ calc_time_overlap ⟨82800, 90000⟩
        ⟨.dt (combine (date 90000) 84600), .dt (combine (date 90000) 85500)⟩
      = 0 := by
  refine ⟨?_, fun d a b => rfl, by decide, by decide⟩
  intro first second
  simp only [calc_time_overlap]
  split <;> omega

/-- Claim C6: the summed break duration is the sum of the individual
overlaps in list order, the empty break list contributes zero, and the
presence over no breaks is exactly the span duration. -/
theorem c6_sum_overlaps (w : Work) (bs : List Interval) :
    get_breaks_duration w bs = (bs.map (fun b => calc_time_overlap w b)).sum
    ∧ get_breaks_duration w ([] : List Interval) = 0
    ∧ get_presence w [] = w.stop - w.start := by
  refine ⟨?_, rfl, by simp [get_presence, get_breaks_duration]⟩
  induction bs with
  | nil => simp [get_breaks_duration]
  | cons b bs ih =>
      rw [get_breaks_duration_cons, List.map_cons, List.sum_cons, ih]

/-- Claim C7: a missing or unreadable stash file is answered with the
default state (log on, work start and end both `now`, breaks 09:00-09:15
and 12:30-13:00, targets 480 and 600 minutes) and the cycle completes,
writing that state and no log line; a present but unparseable file makes
the cycle abort with the parse error before any state is written. -/
theorem c7_state_recovery (now : ℤ) :
    update .missing now
        = .ok ({ log := true
                 work := ⟨now, now⟩
                 breaks := [⟨.tod 32400, .tod 33300⟩,
                            ⟨.tod 45000, .tod 46800⟩]
                 targets := [480, 600] }, false)
    ∧ update .malformed now = .error () := by
  constructor
  · simp [update, _get_stash, _init_stash, update_cycle]
  · rfl

/-- Claim C8: one update cycle followed by a second with the same `now` is
idempotent: the second cycle writes no log line and leaves the state
unchanged, and after the first cycle the work end already equals `now`. -/
theorem c8_idempotent (stash : Stash) (now : ℤ) :
    update_cycle (update_cycle stash now).1 now
        = ((update_cycle stash now).1, false)
    ∧ (update_cycle stash now).1.work.stop = now := by
  by_cases h : date now = date stash.work.start
  · simp [update_cycle, h]
  · simp [update_cycle, h]

/-- Claim C9, amended: serializing a datetime or a time of day and parsing
it back reproduces the value exactly when the value is minute-aligned (the
serialized formats carry no seconds); sub-minute parts are floored away,
see `c9_counterexample`. -/
theorem c9_roundtrip (t u : ℤ) :
    ((60 : ℤ) ∣ t → roundtrip_value (.jdt t) = .jdt t)
    ∧ ((60 : ℤ) ∣ u → roundtrip_value (.jtod u) = .jtod u) := by
  constructor
  · rintro ⟨c, rfl⟩
    simp only [roundtrip_value, dump_value, _datetime_to_string,
      convert_value, Int.mul_fdiv_cancel_left c (by norm_num : (60 : ℤ) ≠ 0)]
  · rintro ⟨c, rfl⟩
    simp only [roundtrip_value, dump_value, _datetime_to_string,
      convert_value, Int.mul_fdiv_cancel_left c (by norm_num : (60 : ℤ) ≠ 0)]

/-- Witness for C9 (amended) at the minute-aligned instant 120 s. -/
theorem c9_witness :
    (60 : ℤ) ∣ 120 ∧ roundtrip_value (.jdt 120) = .jdt 120 :=
  ⟨by decide, (c9_roundtrip 120 0).1 (by decide)⟩

/-- Counterexample to claim C9 as stated: the instant 90 s
(00:01:30) serializes as 00:01 and parses back as 60 s, so the round trip
is not the identity on all timestamps. -/
theorem c9_counterexample :
    roundtrip_value (.jdt 90) = .jdt 60 ∧ roundtrip_value (.jdt 90) ≠ .jdt 90 := by
  have h : roundtrip_value (.jdt 90) = .jdt 60 := rfl
  refine ⟨h, ?_⟩
  rw [h]
  intro hcontra
  have : (60 : ℤ) = 90 := JVal.jdt.inj hcontra
  omega

/-- Claim C10: the deserialization hook converts, independently of the
key, every string parsed by the timestamp format into a datetime, every
remaining string parsed as an ISO time of day into a time object, and
passes every other value through unchanged, strings matching neither
format as well as non-strings. -/
theorem c10_hook_conversion :
    (∀ (l : List (String × JVal)),
        _string_to_datetime l = l.map (fun kv => (kv.1, convert_value kv.2)))
    ∧ (∀ (t : ℤ), convert_value (.jstr (.tsLike t)) = .jdt t)
    ∧ (∀ (u : ℤ), convert_value (.jstr (.todLike u)) = .jtod u)
    ∧ (∀ (s : String), convert_value (.jstr (.plain s)) = .jstr (.plain s))
    ∧ (∀ (n : ℤ), convert_value (.jint n) = .jint n)
    ∧ (∀ (b : Bool), convert_value (.jbool b) = .jbool b)
    ∧ (∀ (t : ℤ), convert_value (.jdt t) = .jdt t)
    ∧ (∀ (u : ℤ), convert_value (.jtod u) = .jtod u)
    ∧ (∀ (l : List JVal), convert_value (.jlist l) = .jlist l) :=
  ⟨fun _ => rfl, fun _ => rfl, fun _ => rfl, fun _ => rfl, fun _ => rfl,
    fun _ => rfl, fun _ => rfl, fun _ => rfl, fun _ => rfl⟩

end TimeCapture
